import Mathlib

/-!
Verification of the todo-tracker core of pi-superpowers
(src/extensions/todo-tracker/index.ts): the reducer `execute`, the
summary formatter `summaryText`, and the branch-replay reconstructor
`reconstructState`, shallowly embedded as pure Lean functions with the
module-level mutable `state` turned into explicit state passing.
-/

namespace TodoTracker

/-- Item status, `type TodoStatus` in the source. -/
inductive TodoStatus where
  | pending
  | in_progress
  | done
  | skipped
  | blocked
deriving DecidableEq, Repr

/-- Source `interface TodoItem`: one task. -/
structure TodoItem where
  id : Nat
  text : String
  status : TodoStatus
  reason : Option String := none
  group : Option String := none
deriving DecidableEq, Repr

/-- Source `interface TodoState`: the whole tracked list. -/
structure TodoState where
  items : List TodoItem
  nextId : Nat
  listName : Option String := none
deriving DecidableEq, Repr

/-- The initial value of the module state: `{ items: [], nextId: 1 }`. -/
def defaultState : TodoState := { items := [], nextId := 1 }

/-- One entry of a `batch` request: a text with an optional group. -/
structure BatchEntry where
  text : String
  group : Option String := none
deriving DecidableEq, Repr

/-- The action discriminator of `TodoParams` (the `ActionEnum`). -/
inductive TodoAction where
  | create
  | add
  | batch
  | start
  | done
  | skip
  | block
  | reset
  | list
  | summary
  | clear
deriving DecidableEq, Repr

/-- The tool parameters object (`TodoParams` schema): every field but
`action` is optional. -/
structure TodoParams where
  action : TodoAction
  name : Option String := none
  text : Option String := none
  items : Option (List BatchEntry) := none
  id : Option Nat := none
  reason : Option String := none
  group : Option String := none
deriving DecidableEq, Repr

/-- Source `interface TodoDetails extends TodoState`: the machine-readable
snapshot attached to every tool result. -/
structure TodoDetails where
  action : String
  items : List TodoItem
  nextId : Nat
  listName : Option String := none
  error : Option String := none
deriving DecidableEq, Repr

/-- The result of one `execute` call: the human-readable content line
plus the `TodoDetails` snapshot. -/
structure ExecResult where
  contentText : String
  details : TodoDetails
deriving DecidableEq, Repr

/-- Source `makeDetails`: snapshot of the current state with the action
name and optional error attached. -/
def makeDetails (s : TodoState) (action : String)
    (error : Option String := none) : TodoDetails :=
  { action := action, items := s.items, nextId := s.nextId,
    listName := s.listName, error := error }

/-- Projects a details snapshot back to the state it carries (what
`reconstructState` assigns from an entry's details). -/
def detailsState (d : TodoDetails) : TodoState :=
  { items := d.items, nextId := d.nextId, listName := d.listName }

/-- The TypeScript name of each action (the string stored in the
details' `action` field and spliced into messages). -/
def actionName : TodoAction → String
  | .create => "create"
  | .add => "add"
  | .batch => "batch"
  | .start => "start"
  | .done => "done"
  | .skip => "skip"
  | .block => "block"
  | .reset => "reset"
  | .list => "list"
  | .summary => "summary"
  | .clear => "clear"

/-- The TypeScript string value of a status. -/
def statusText : TodoStatus → String
  | .pending => "pending"
  | .in_progress => "in_progress"
  | .done => "done"
  | .skipped => "skipped"
  | .blocked => "blocked"

/-- Lookup in the `STATUS_ICONS` record. -/
def statusIcon : TodoStatus → String
  | .pending => "○"
  | .in_progress => "◉"
  | .done => "✓"
  | .skipped => "⊘"
  | .blocked => "✗"

/-- JavaScript truthiness of an optional string: `undefined` and `""`
are falsy. Used for `!params.text` and `item.reason ? ... : ""`. -/
def strTruthy : Option String → Bool
  | none => false
  | some s => !s.isEmpty

/-- The ` (reason)` suffix rendered when `item.reason` is truthy. -/
def reasonSuffix (r : Option String) : String :=
  match r with
  | some s => if s.isEmpty then "" else " (" ++ s ++ ")"
  | none => ""

/-- Source `formatItemPlain`. -/
def formatItemPlain (item : TodoItem) : String :=
  statusIcon item.status ++ " #" ++ toString item.id ++ ": " ++
    item.text ++ reasonSuffix item.reason

/-- Occurrences of one status among the items (the `counts` record of
`summaryText`, one field at a time). -/
def countStatus (items : List TodoItem) (st : TodoStatus) : Nat :=
  items.countP (fun i => i.status == st)

/-- Source `summaryText`: total plus per-status counts in the fixed
order done, in progress, pending, blocked, skipped, zero counts
omitted. -/
def summaryText (items : List TodoItem) : String :=
  let cDone := countStatus items .done
  let cProg := countStatus items .in_progress
  let cPend := countStatus items .pending
  let cBlock := countStatus items .blocked
  let cSkip := countStatus items .skipped
  let parts : List String :=
    (if cDone ≠ 0 then [toString cDone ++ " done"] else []) ++
    (if cProg ≠ 0 then [toString cProg ++ " in progress"] else []) ++
    (if cPend ≠ 0 then [toString cPend ++ " pending"] else []) ++
    (if cBlock ≠ 0 then [toString cBlock ++ " blocked"] else []) ++
    (if cSkip ≠ 0 then [toString cSkip ++ " skipped"] else [])
  toString items.length ++ " items: " ++ String.intercalate ", " parts

/-- The `statusMap` of the shared `start`/`done`/`skip`/`block`/`reset`
case; the switch only reaches it for those five actions, so it returns
`none` elsewhere. -/
def statusMap : TodoAction → Option TodoStatus
  | .start => some .in_progress
  | .done => some .done
  | .skip => some .skipped
  | .block => some .blocked
  | .reset => some .pending
  | _ => none

/-- In-place mutation of the item found by `findItem`: the FIRST item
with the given id gets the new status and the (unconditionally
overwritten) reason; later items are untouched. -/
def updateFirst (items : List TodoItem) (id : Nat) (st : TodoStatus)
    (reason : Option String) : List TodoItem :=
  match items with
  | [] => []
  | i :: rest =>
    if i.id = id then { i with status := st, reason := reason } :: rest
    else i :: updateFirst rest id st reason

/-- The loop body of the `batch` case: fresh items built in listed
order with ids `nextId, nextId+1, ...`, status `pending`. -/
def batchItems (nextId : Nat) : List BatchEntry → List TodoItem
  | [] => []
  | e :: rest =>
    { id := nextId, text := e.text, status := .pending,
      group := e.group } :: batchItems (nextId + 1) rest

/-- The shared `start`/`done`/`skip`/`block`/`reset` case of `execute`,
with the status it maps to passed in. -/
def applyStatus (s : TodoState) (act : TodoAction) (newStatus : TodoStatus)
    (p : TodoParams) : TodoState × ExecResult :=
  match p.id with
  | none =>
    (s, { contentText := "Error: id required for " ++ actionName act,
          details := makeDetails s (actionName act) (some "id required") })
  | some id =>
    match s.items.find? (fun i => i.id == id) with
    | none =>
      (s, { contentText := "Item #" ++ toString id ++ " not found",
            details := makeDetails s (actionName act)
              (some ("#" ++ toString id ++ " not found")) })
    | some _ =>
      let s' : TodoState :=
        { s with items := updateFirst s.items id newStatus p.reason }
      (s', { contentText := "#" ++ toString id ++ " → " ++
               statusText newStatus ++ reasonSuffix p.reason,
             details := makeDetails s' (actionName act) })

/-- The reducer: the `execute` function of the registered `todo` tool,
with the module-level `state` threaded explicitly. Returns the new
state together with the content line and details snapshot. -/
def execute (s : TodoState) (p : TodoParams) : TodoState × ExecResult :=
  match p.action with
  | .create =>
    let s' : TodoState := { items := [], nextId := 1, listName := p.name }
    (s', { contentText := "Created todo list" ++
             (match p.name with | some n => ": " ++ n | none => ""),
           details := makeDetails s' "create" })
  | .add =>
    if !strTruthy p.text then
      (s, { contentText := "Error: text required for add",
            details := makeDetails s "add" (some "text required") })
    else
      let item : TodoItem :=
        { id := s.nextId, text := p.text.getD "", status := .pending,
          group := p.group }
      let s' : TodoState :=
        { s with items := s.items ++ [item], nextId := s.nextId + 1 }
      (s', { contentText := "Added #" ++ toString item.id ++ ": " ++ item.text,
             details := makeDetails s' "add" })
  | .batch =>
    match p.items with
    | none =>
      (s, { contentText := "Error: items array required for batch",
            details := makeDetails s "batch" (some "items required") })
    | some [] =>
      (s, { contentText := "Error: items array required for batch",
            details := makeDetails s "batch" (some "items required") })
    | some entries =>
      let added := batchItems s.nextId entries
      let s' : TodoState :=
        { s with items := s.items ++ added,
                 nextId := s.nextId + entries.length }
      (s', { contentText := "Added " ++ toString added.length ++ " items:\n" ++
               String.intercalate "\n"
                 (added.map (fun i => "  #" ++ toString i.id ++ ": " ++ i.text)),
             details := makeDetails s' "batch" })
  | .start => applyStatus s .start .in_progress p
  | .done => applyStatus s .done .done p
  | .skip => applyStatus s .skip .skipped p
  | .block => applyStatus s .block .blocked p
  | .reset => applyStatus s .reset .pending p
  | .list =>
    if s.items.isEmpty then
      (s, { contentText := "No items", details := makeDetails s "list" })
    else
      let header := match s.listName with | some n => n ++ "\n" | none => ""
      (s, { contentText := header ++
              String.intercalate "\n" (s.items.map formatItemPlain) ++
              "\n\n" ++ summaryText s.items,
            details := makeDetails s "list" })
  | .summary =>
    (s, { contentText := summaryText s.items,
          details := makeDetails s "summary" })
  | .clear =>
    let s' : TodoState := { items := [], nextId := 1, listName := s.listName }
    (s', { contentText := "Cleared " ++ toString s.items.length ++ " items",
           details := makeDetails s' "clear" })

-- --- Reconstructor ---

/-- One entry of the session branch as `reconstructState` inspects it:
its `type`, the message `role` and `toolName`, and the optional
`details` blob. -/
structure SessionEntry where
  type : String
  role : String
  toolName : String
  details : Option TodoDetails := none
deriving DecidableEq, Repr

/-- The combined guard of the three `continue`s in `reconstructState`:
the entry is a `message` whose message is a `toolResult` of the `todo`
tool. -/
def matchesTodo (e : SessionEntry) : Bool :=
  e.type == "message" && e.role == "toolResult" && e.toolName == "todo"

/-- One iteration of the `reconstructState` loop. -/
def reconStep (s : TodoState) (e : SessionEntry) : TodoState :=
  if matchesTodo e then
    match e.details with
    | some d => detailsState d
    | none => s
  else s

/-- Source `reconstructState`: reset to the default state, then scan the
branch, adopting the snapshot of every matching entry (so the last one
wins). -/
def reconstructState (branch : List SessionEntry) : TodoState :=
  branch.foldl reconStep defaultState

/-- Full reducer replay of an action sequence from the default empty
state (the reference semantics the Reconstructor must agree with). -/
def replay (ps : List TodoParams) : TodoState :=
  ps.foldl (fun s p => (execute s p).1) defaultState

/-- The details snapshots recorded by running an action sequence from a
state: each call's `details` in order (what the external log owner
appends). -/
def runRecords (s : TodoState) : List TodoParams → List TodoDetails
  | [] => []
  | p :: ps => (execute s p).2.details :: runRecords (execute s p).1 ps

/-- Wraps a recorded snapshot as the session entry the branch carries
for it: a `message` entry, `toolResult` role, tool `todo`. -/
def recordEntry (d : TodoDetails) : SessionEntry :=
  { type := "message", role := "toolResult", toolName := "todo",
    details := some d }


/-- Ids handed out by one call, read off the reducer itself: the ids of
the items that sit beyond the pre-call length of `items` in the
post-call state (for `add`/`batch` these are exactly the freshly
appended items; every other action appends nothing). -/
def newIds (s : TodoState) (p : TodoParams) : List Nat :=
  (((execute s p).1.items).drop s.items.length).map (fun i => i.id)

/-- The concatenated trace of ids handed out over a whole action
sequence, in execution order. -/
def idTrace (s : TodoState) : List TodoParams → List Nat
  | [] => []
  | p :: ps => newIds s p ++ idTrace (execute s p).1 ps

/-- Spec vocabulary (§7): the reducer strings that report a
`ValidationError` (missing/empty required field). -/
def isValidationError (e : String) : Prop :=
  e = "text required" ∨ e = "items required" ∨ e = "id required"

/-- Spec vocabulary (§7): the reducer strings that report a
`NotFoundError` (referenced id does not exist). -/
def isNotFoundError (e : String) : Prop :=
  ∃ n : Nat, e = "#" ++ toString n ++ " not found"

-- --- Helper lemmas ---

/-- Adopting a snapshot made from a state gives that state back. -/
theorem detailsState_makeDetails (s : TodoState) (a : String)
    (e : Option String) : detailsState (makeDetails s a e) = s := rfl

/-- Every branch of the reducer snapshots its post-call state. -/
theorem execute_details_state (s : TodoState) (p : TodoParams) :
    detailsState (execute s p).2.details = (execute s p).1 := by
  obtain ⟨act, nm, tx, its, pid, rsn, grp⟩ := p
  cases act <;>
    simp only [execute, applyStatus, makeDetails, detailsState] <;>
    (repeat' split) <;> rfl

-- --- Claim theorems ---

/-- Claim C10: when `items` is empty the derived summary line is exactly
the string "0 items: " (total, colon-space, no status parts), and the
`summary` action returns that string for any empty state. -/
theorem summary_empty_state (s : TodoState) (p : TodoParams)
    (hact : p.action = TodoAction.summary) (hempty : s.items = []) :
    (execute s p).2.contentText = "0 items: " ∧ summaryText [] = "0 items: " := by
  obtain ⟨act, nm, tx, its, pid, rsn, grp⟩ := p
  cases hact
  simp only [execute, hempty]
  exact ⟨by decide, by decide⟩

/-- Witness for C10 at the default empty state. -/
theorem summary_empty_state_witness :
    (execute defaultState { action := TodoAction.summary }).2.contentText = "0 items: " :=
  (summary_empty_state defaultState { action := TodoAction.summary } rfl rfl).1

/-- Counterexample to C2 as stated: `clear` does NOT preserve `nextId`;
on a state with `nextId = 5` the post-clear `nextId` is 1. -/
theorem clear_nextId_not_preserved :
    ¬ ((execute { items := [{ id := 1, text := "a", status := TodoStatus.pending }],
                  nextId := 5, listName := some "x" }
          { action := TodoAction.clear }).1.nextId
        = ({ items := [{ id := 1, text := "a", status := TodoStatus.pending }],
             nextId := 5, listName := some "x" } : TodoState).nextId) := by
  decide

/-- Claim C2 (amended): `clear` empties `items`, preserves `listName`,
resets `nextId` to 1, and never returns an error. -/
theorem clear_spec_amended (s : TodoState) (p : TodoParams)
    (hact : p.action = TodoAction.clear) :
    (execute s p).1.items = [] ∧ (execute s p).1.nextId = 1 ∧
    (execute s p).1.listName = s.listName ∧
    (execute s p).2.details.error = none := by
  obtain ⟨act, nm, tx, its, pid, rsn, grp⟩ := p
  cases hact
  simp [execute, makeDetails]

/-- Witness for the amended C2 at a concrete non-trivial state. -/
theorem clear_spec_amended_witness :
    (execute { items := [{ id := 3, text := "t", status := TodoStatus.done }],
               nextId := 7, listName := some "L" }
       { action := TodoAction.clear }).1.nextId = 1 :=
  (clear_spec_amended
    { items := [{ id := 3, text := "t", status := TodoStatus.done }],
      nextId := 7, listName := some "L" }
    { action := TodoAction.clear } rfl).2.1

/-- A fold of the reconstruction step over entries none of which match
the `todo` tool leaves the state unchanged. -/
theorem foldl_reconStep_of_no_match :
    ∀ (l : List SessionEntry) (s : TodoState),
      (∀ e ∈ l, matchesTodo e = false) → l.foldl reconStep s = s := by
  intro l
  induction l with
  | nil => intro s _; rfl
  | cons e rest ih =>
    intro s h
    have he : matchesTodo e = false := h e (by simp)
    have hstep : reconStep s e = s := by simp [reconStep, he]
    simp only [List.foldl_cons, hstep]
    exact ih s (fun x hx => h x (by simp [hx]))

/-- Claim C9: a branch containing no record of this tracker
reconstructs to the default empty TodoState. -/
theorem reconstruct_no_records_default (branch : List SessionEntry)
    (h : ∀ e ∈ branch, matchesTodo e = false) :
    reconstructState branch = defaultState :=
  foldl_reconStep_of_no_match branch defaultState h

/-- Witness for C9: a branch of only unrelated entries. -/
theorem reconstruct_no_records_default_witness :
    reconstructState
      [ { type := "message", role := "toolResult", toolName := "bash" },
        { type := "label", role := "", toolName := "" },
        { type := "message", role := "assistant", toolName := "todo" } ]
      = defaultState :=
  reconstruct_no_records_default _ (by decide)

/-- Claim C8: the summary line is the total followed by " items: " and
the per-status counts in the fixed order done, in progress, pending,
blocked, skipped (zero counts omitted, parts joined by ", "), and it is
invariant under permutation of the items, hence independent of
insertion order. -/
theorem summary_format_spec (items : List TodoItem) :
    summaryText items =
      toString items.length ++ " items: " ++ String.intercalate ", "
        ((if countStatus items TodoStatus.done ≠ 0 then
            [toString (countStatus items TodoStatus.done) ++ " done"] else []) ++
         (if countStatus items TodoStatus.in_progress ≠ 0 then
            [toString (countStatus items TodoStatus.in_progress) ++ " in progress"] else []) ++
         (if countStatus items TodoStatus.pending ≠ 0 then
            [toString (countStatus items TodoStatus.pending) ++ " pending"] else []) ++
         (if countStatus items TodoStatus.blocked ≠ 0 then
            [toString (countStatus items TodoStatus.blocked) ++ " blocked"] else []) ++
         (if countStatus items TodoStatus.skipped ≠ 0 then
            [toString (countStatus items TodoStatus.skipped) ++ " skipped"] else [])) ∧
    ∀ l2 : List TodoItem, items.Perm l2 → summaryText items = summaryText l2 := by
  refine ⟨rfl, fun l2 h => ?_⟩
  simp only [summaryText, countStatus, h.length_eq, h.countP_eq]

/-- Witness for C8 at a concrete two-item list and its swap. -/
theorem summary_format_spec_witness :
    summaryText
        [ { id := 1, text := "a", status := TodoStatus.pending },
          { id := 2, text := "b", status := TodoStatus.done } ]
      = summaryText
        [ { id := 2, text := "b", status := TodoStatus.done },
          { id := 1, text := "a", status := TodoStatus.pending } ] :=
  (summary_format_spec
      [ { id := 1, text := "a", status := TodoStatus.pending },
        { id := 2, text := "b", status := TodoStatus.done } ]).2
    _ (List.Perm.swap _ _ _)

/-- Counterexample to C3 as stated: after a `create`, the sequence
add "a", clear, add "b" hands out id 1 twice (the trace of assigned
ids is [1, 1]), so ids are neither strictly increasing nor unrepeated
across a `clear`. -/
theorem id_reuse_after_clear :
    ¬ (idTrace (execute defaultState { action := TodoAction.create }).1
        [ { action := TodoAction.add, text := some "a" },
          { action := TodoAction.clear },
          { action := TodoAction.add, text := some "b" } ]).Pairwise (· < ·) := by
  decide

/-- Counterexample to C5 as stated: `batch` accepts an entry with empty
text without error, so a state whose item has empty `text` is reachable
from the default state by one successful action. -/
theorem batch_empty_text_reachable :
    (execute defaultState
        { action := TodoAction.batch, items := some [{ text := "" }] }).2.details.error = none ∧
    ∃ it ∈ (replay [{ action := TodoAction.batch, items := some [{ text := "" }] }]).items,
      it.text = "" := by
  decide

/-- Item texts are untouched by the in-place status update. -/
theorem updateFirst_map_text (l : List TodoItem) (n : Nat)
    (st : TodoStatus) (r : Option String) :
    (updateFirst l n st r).map (fun i => i.text) = l.map (fun i => i.text) := by
  induction l with
  | nil => rfl
  | cons i rest ih =>
    by_cases hi : i.id = n <;> simp [updateFirst, hi, ih]

/-- The texts of a batch of fresh items are the texts of the request
entries, in order. -/
theorem batchItems_map_text (es : List BatchEntry) :
    ∀ n, (batchItems n es).map (fun i => i.text) = es.map (fun e => e.text) := by
  induction es with
  | nil => intro n; rfl
  | cons e rest ih => intro n; simp [batchItems, ih]

/-- The shared status case never introduces an item with a new text. -/
theorem applyStatus_text (s : TodoState) (act : TodoAction)
    (st : TodoStatus) (p : TodoParams)
    (hinv : ∀ it ∈ s.items, it.text ≠ "") :
    ∀ it ∈ (applyStatus s act st p).1.items, it.text ≠ "" := by
  rcases hp : p.id with _ | n
  · intro it hit
    simp only [applyStatus, hp] at hit
    exact hinv it hit
  · cases hf : s.items.find? (fun i => i.id == n) with
    | none =>
      intro it hit
      simp only [applyStatus, hp, hf] at hit
      exact hinv it hit
    | some hit0 =>
      intro it hit
      simp only [applyStatus, hp, hf] at hit
      have hmem : it.text ∈ (updateFirst s.items n st p.reason).map (fun i => i.text) :=
        List.mem_map_of_mem _ hit
      rw [updateFirst_map_text] at hmem
      obtain ⟨src, hsrc, heq⟩ := List.mem_map.mp hmem
      rw [← heq]
      exact hinv src hsrc

/-- One reducer step preserves "every item text is non-empty", provided
any batch entries in the request have non-empty text. -/
theorem text_step (s : TodoState) (p : TodoParams)
    (hb : ∀ es, p.items = some es → ∀ e ∈ es, e.text ≠ "")
    (hinv : ∀ it ∈ s.items, it.text ≠ "") :
    ∀ it ∈ (execute s p).1.items, it.text ≠ "" := by
  obtain ⟨act, nm, tx, its, pid, rsn, grp⟩ := p
  cases act with
  | create => simp [execute]
  | add =>
    by_cases ht : strTruthy tx
    · rcases tx with _ | t
      · simp [strTruthy] at ht
      · have htne : t ≠ "" := by
          intro h
          subst h
          simp [strTruthy] at ht
          exact absurd ht (by decide)
        intro it hit
        simp only [execute, ht, Bool.not_true, Bool.false_eq_true,
          if_false, List.mem_append, List.mem_singleton] at hit
        rcases hit with h | h
        · exact hinv it h
        · subst h; exact htne
    · intro it hit
      simp only [execute, ht] at hit
      exact hinv it hit
  | batch =>
    rcases its with _ | ⟨_ | ⟨e, es⟩⟩
    · intro it hit; simp only [execute] at hit; exact hinv it hit
    · intro it hit; simp only [execute] at hit; exact hinv it hit
    · intro it hit
      simp only [execute, List.mem_append] at hit
      rcases hit with h | h
      · exact hinv it h
      · have : it.text ∈ (batchItems s.nextId (e :: es)).map (fun i => i.text) :=
          List.mem_map_of_mem _ h
        rw [batchItems_map_text] at this
        obtain ⟨src, hsrc, heq⟩ := List.mem_map.mp this
        rw [← heq]
        exact hb (e :: es) rfl src hsrc
  | start =>
    simp only [execute]
    exact applyStatus_text _ _ _ _ hinv
  | done =>
    simp only [execute]
    exact applyStatus_text _ _ _ _ hinv
  | skip =>
    simp only [execute]
    exact applyStatus_text _ _ _ _ hinv
  | block =>
    simp only [execute]
    exact applyStatus_text _ _ _ _ hinv
  | reset =>
    simp only [execute]
    exact applyStatus_text _ _ _ _ hinv
  | list =>
    intro it hit
    by_cases he : s.items.isEmpty <;> simp only [execute, he] at hit <;>
      exact hinv it hit
  | summary => intro it hit; simp only [execute] at hit; exact hinv it hit
  | clear => simp [execute]

/-- Folding the reducer over an action sequence preserves non-empty
item texts when every batch entry in the sequence has non-empty text. -/
theorem text_fold :
    ∀ (ps : List TodoParams) (s : TodoState),
      (∀ p ∈ ps, ∀ es, p.items = some es → ∀ e ∈ es, e.text ≠ "") →
      (∀ it ∈ s.items, it.text ≠ "") →
      ∀ it ∈ (ps.foldl (fun s p => (execute s p).1) s).items, it.text ≠ "" := by
  intro ps
  induction ps with
  | nil => intro s _ hinv; exact hinv
  | cons p rest ih =>
    intro s hps hinv
    simp only [List.foldl_cons]
    exact ih (execute s p).1 (fun q hq => hps q (by simp [hq]))
      (text_step s p (hps p (by simp)) hinv)

/-- Claim C5 (amended): every item in a state reached by replaying any
action sequence from the default state has non-empty text, PROVIDED the
batch entries in the sequence all carry non-empty text (add already
rejects empty text on its own; batch does not validate entry texts, see
the counterexample). -/
theorem text_nonempty_invariant (ps : List TodoParams)
    (h : ∀ p ∈ ps, ∀ es, p.items = some es → ∀ e ∈ es, e.text ≠ "") :
    ∀ it ∈ (replay ps).items, it.text ≠ "" :=
  text_fold ps defaultState h (by simp [defaultState])

/-- Witness for the amended C5: the first item of a concrete add/batch
run has non-empty text. -/
theorem text_nonempty_invariant_witness :
    ({ id := 1, text := "hello", status := TodoStatus.pending } : TodoItem) ∈
      (replay
        [ { action := TodoAction.add, text := some "hello" },
          { action := TodoAction.batch,
            items := some [{ text := "a" }, { text := "b" }] } ]).items ∧
    ({ id := 1, text := "hello", status := TodoStatus.pending } : TodoItem).text ≠ "" :=
  ⟨by decide,
   text_nonempty_invariant
     [ { action := TodoAction.add, text := some "hello" },
       { action := TodoAction.batch,
         items := some [{ text := "a" }, { text := "b" }] } ]
     (by decide)
     { id := 1, text := "hello", status := TodoStatus.pending } (by decide)⟩

/-- The not-found message is never the empty string. -/
theorem notFound_ne_empty (n : Nat) :
    ("#" ++ toString n ++ " not found" : String) ≠ "" := by
  intro h
  have h2 := congrArg String.length h
  simp [String.length_append] at h2
  exact absurd h2.1.1 (by decide)

/-- The shared status case: an error reply leaves the state untouched
and its message is non-empty. -/
theorem applyStatus_error_non_mutation (s : TodoState) (act : TodoAction)
    (st : TodoStatus) (p : TodoParams)
    (h : (applyStatus s act st p).2.details.error ≠ none) :
    (applyStatus s act st p).1 = s ∧
    (applyStatus s act st p).2.details.error ≠ some "" := by
  rcases hp : p.id with _ | n
  · constructor <;> simp [applyStatus, hp, makeDetails]
  · cases hf : s.items.find? (fun i => i.id == n) with
    | none =>
      constructor
      · simp [applyStatus, hp, hf]
      · simp only [applyStatus, hp, hf, makeDetails, ne_eq, Option.some.injEq]
        exact fun h2 => notFound_ne_empty n h2
    | some it0 =>
      exfalso
      exact h (by simp [applyStatus, hp, hf, makeDetails])

/-- Claim C4: whenever the reply carries an error, the post-call state
(items, nextId, listName) is identical to the pre-call state, and the
error string is non-empty. (Failure has no independent definition in
the reducer beyond the presence of the `error` field, so "error exactly
when failed" is captured by: every emitted error is non-empty and
mutating branches emit none.) -/
theorem error_non_mutation (s : TodoState) (p : TodoParams)
    (h : (execute s p).2.details.error ≠ none) :
    (execute s p).1 = s ∧ (execute s p).2.details.error ≠ some "" := by
  obtain ⟨act, nm, tx, its, pid, rsn, grp⟩ := p
  cases act with
  | create => exact absurd (by simp [execute, makeDetails]) h
  | add =>
    by_cases ht : strTruthy tx
    · exact absurd (by simp [execute, ht, makeDetails]) h
    · constructor <;> simp [execute, ht, makeDetails]
  | batch =>
    rcases its with _ | ⟨_ | ⟨e, es⟩⟩
    · constructor <;> simp [execute, makeDetails]
    · constructor <;> simp [execute, makeDetails]
    · exact absurd (by simp [execute, makeDetails]) h
  | start =>
    simp only [execute] at h ⊢
    exact applyStatus_error_non_mutation _ _ _ _ h
  | done =>
    simp only [execute] at h ⊢
    exact applyStatus_error_non_mutation _ _ _ _ h
  | skip =>
    simp only [execute] at h ⊢
    exact applyStatus_error_non_mutation _ _ _ _ h
  | block =>
    simp only [execute] at h ⊢
    exact applyStatus_error_non_mutation _ _ _ _ h
  | reset =>
    simp only [execute] at h ⊢
    exact applyStatus_error_non_mutation _ _ _ _ h
  | list =>
    by_cases he : s.items.isEmpty
    · exact absurd (by simp [execute, he, makeDetails]) h
    · exact absurd (by simp [execute, he, makeDetails]) h
  | summary => exact absurd (by simp [execute, makeDetails]) h
  | clear => exact absurd (by simp [execute, makeDetails]) h

/-- Witness for C4: `add` without text errors, mutates nothing, and the
message is non-empty. -/
theorem error_non_mutation_witness :
    (execute { items := [], nextId := 4, listName := some "L" }
        { action := TodoAction.add }).1
      = { items := [], nextId := 4, listName := some "L" } :=
  (error_non_mutation { items := [], nextId := 4, listName := some "L" }
    { action := TodoAction.add } (by decide)).1

/-- A successful `findItem` splits the list at the FIRST item carrying
the id, and the in-place update rewrites exactly that occurrence. -/
theorem find_update_split (items : List TodoItem) (n : Nat) (it : TodoItem)
    (st : TodoStatus) (r : Option String)
    (h : items.find? (fun i => i.id == n) = some it) :
    it.id = n ∧ ∃ l1 l2, items = l1 ++ it :: l2 ∧ (∀ a ∈ l1, a.id ≠ n) ∧
      updateFirst items n st r = l1 ++ ({ it with status := st, reason := r }) :: l2 := by
  induction items with
  | nil => simp at h
  | cons i rest ih =>
    by_cases hi : i.id = n
    · have hfind : (i :: rest).find? (fun i => i.id == n) = some i :=
        List.find?_cons_of_pos _ (by simp [hi])
      rw [hfind] at h
      injection h with h
      subst h
      exact ⟨hi, [], rest, rfl, by simp, by simp [updateFirst, hi]⟩
    · have hfind : (i :: rest).find? (fun i => i.id == n) =
          rest.find? (fun i => i.id == n) :=
        List.find?_cons_of_neg _ (by simp [hi])
      rw [hfind] at h
      obtain ⟨hid, l1, l2, heq, hne, hupd⟩ := ih h
      exact ⟨hid, i :: l1, l2, by simp [heq], by simpa [hi] using hne,
        by simp [updateFirst, hi, hupd]⟩

/-- When `statusMap` yields a status, `execute` is the shared status
case with that status. -/
theorem execute_status (s : TodoState) (p : TodoParams) (st : TodoStatus)
    (hst : statusMap p.action = some st) :
    execute s p = applyStatus s p.action st p := by
  obtain ⟨act, nm, tx, its, pid, rsn, grp⟩ := p
  cases act <;> simp [statusMap] at hst <;> (subst hst; rfl)

/-- Claim C6: each of start/done/skip/block/reset with an id naming an
existing item sets that (first such) item's status to the mapped value
and overwrites its reason with the supplied one (clearing it when none
is supplied), unconditionally and leaving everything else untouched;
with the id omitted it fails with a ValidationError, and with an id
naming no item it fails with a NotFoundError — in both failure cases
the state is unchanged. -/
theorem status_action_spec (s : TodoState) (p : TodoParams) (st : TodoStatus)
    (hst : statusMap p.action = some st) :
    (p.id = none → (execute s p).1 = s ∧
      ∃ e, (execute s p).2.details.error = some e ∧ isValidationError e) ∧
    (∀ n, p.id = some n →
      ((∀ it ∈ s.items, it.id ≠ n) → (execute s p).1 = s ∧
        ∃ e, (execute s p).2.details.error = some e ∧ isNotFoundError e) ∧
      (∀ it, s.items.find? (fun i => i.id == n) = some it →
        ∃ l1 l2, s.items = l1 ++ it :: l2 ∧ (∀ a ∈ l1, a.id ≠ n) ∧
          (execute s p).1.items =
            l1 ++ ({ it with status := st, reason := p.reason }) :: l2 ∧
          (execute s p).1.nextId = s.nextId ∧
          (execute s p).1.listName = s.listName ∧
          (execute s p).2.details.error = none)) := by
  rw [execute_status s p st hst]
  constructor
  · intro hid
    refine ⟨by simp [applyStatus, hid], "id required", ?_, Or.inr (Or.inr rfl)⟩
    simp [applyStatus, hid, makeDetails]
  · intro n hid
    constructor
    · intro hnone
      have hf : s.items.find? (fun i => i.id == n) = none := by
        rw [List.find?_eq_none]
        intro a ha
        simpa using hnone a ha
      refine ⟨by simp [applyStatus, hid, hf], _, ?_, n, rfl⟩
      simp [applyStatus, hid, hf, makeDetails]
    · intro it hf
      obtain ⟨hid2, l1, l2, heq, hne, hupd⟩ :=
        find_update_split s.items n it st p.reason hf
      exact ⟨l1, l2, heq, hne, by simp [applyStatus, hid, hf, hupd],
        by simp [applyStatus, hid, hf], by simp [applyStatus, hid, hf],
        by simp [applyStatus, hid, hf, makeDetails]⟩

/-- Witness for C6: Scenario D's first half, skip with a reason on a
blocked item with an old reason. -/
theorem status_action_spec_witness :
    ∃ l1 l2,
      ([ { id := 1, text := "a", status := TodoStatus.blocked,
           reason := some "stuck" } ] : List TodoItem)
        = l1 ++ ({ id := 1, text := "a", status := TodoStatus.blocked,
                   reason := some "stuck" } : TodoItem) :: l2 ∧
      (∀ a ∈ l1, a.id ≠ 1) ∧
      (execute { items := [ { id := 1, text := "a",
                              status := TodoStatus.blocked,
                              reason := some "stuck" } ], nextId := 2 }
          { action := TodoAction.skip, id := some 1,
            reason := some "flaky env" }).1.items
        = l1 ++ ({ id := 1, text := "a", status := TodoStatus.skipped,
                   reason := some "flaky env" } : TodoItem) :: l2 ∧
      (execute { items := [ { id := 1, text := "a",
                              status := TodoStatus.blocked,
                              reason := some "stuck" } ], nextId := 2 }
          { action := TodoAction.skip, id := some 1,
            reason := some "flaky env" }).1.nextId = 2 ∧
      (execute { items := [ { id := 1, text := "a",
                              status := TodoStatus.blocked,
                              reason := some "stuck" } ], nextId := 2 }
          { action := TodoAction.skip, id := some 1,
            reason := some "flaky env" }).1.listName = none ∧
      (execute { items := [ { id := 1, text := "a",
                              status := TodoStatus.blocked,
                              reason := some "stuck" } ], nextId := 2 }
          { action := TodoAction.skip, id := some 1,
            reason := some "flaky env" }).2.details.error = none :=
  ((status_action_spec
      { items := [ { id := 1, text := "a", status := TodoStatus.blocked,
                     reason := some "stuck" } ], nextId := 2 }
      { action := TodoAction.skip, id := some 1, reason := some "flaky env" }
      TodoStatus.skipped rfl).2 1 rfl).2
    { id := 1, text := "a", status := TodoStatus.blocked,
      reason := some "stuck" } (by decide)

/-- The ids of a batch of fresh items are consecutive from the starting
next id. -/
theorem batchItems_map_id (es : List BatchEntry) :
    ∀ n, (batchItems n es).map (fun i => i.id) = List.range' n es.length := by
  induction es with
  | nil => intro n; rfl
  | cons e rest ih =>
    intro n
    simp [batchItems, ih, List.range'_succ]

/-- Every item of a fresh batch starts out pending. -/
theorem batchItems_status (es : List BatchEntry) :
    ∀ n, ∀ it ∈ batchItems n es, it.status = TodoStatus.pending := by
  induction es with
  | nil => intro n it hit; simp [batchItems] at hit
  | cons e rest ih =>
    intro n it hit
    rcases (by simpa [batchItems] using hit : it = _ ∨ it ∈ batchItems (n + 1) rest) with
      h | h
    · subst h; rfl
    · exact ih (n + 1) it h

/-- Claim C7: `batch` with a non-empty list appends the new items in
listed order with status pending and ids consecutive from the current
`nextId` (which grows by N); with a missing or empty list it fails with
a ValidationError leaving the state — in particular `nextId` —
unchanged, so application is all-or-nothing. -/
theorem batch_spec (s : TodoState) (p : TodoParams)
    (hb : p.action = TodoAction.batch) :
    ((p.items = none ∨ p.items = some []) →
      (execute s p).1 = s ∧
      (execute s p).2.details.error = some "items required" ∧
      isValidationError "items required") ∧
    (∀ es, p.items = some es → es ≠ [] →
      (execute s p).1.items = s.items ++ batchItems s.nextId es ∧
      (execute s p).1.nextId = s.nextId + es.length ∧
      (execute s p).1.listName = s.listName ∧
      (execute s p).2.details.error = none ∧
      (batchItems s.nextId es).map (fun i => i.id) =
        List.range' s.nextId es.length ∧
      (batchItems s.nextId es).map (fun i => i.text) =
        es.map (fun e => e.text) ∧
      ∀ it ∈ batchItems s.nextId es, it.status = TodoStatus.pending) := by
  obtain ⟨act, nm, tx, its, pid, rsn, grp⟩ := p
  cases hb
  constructor
  · rintro (h | h) <;> simp only [] at h <;> subst h <;>
      exact ⟨by simp [execute], by simp [execute, makeDetails],
        Or.inr (Or.inl rfl)⟩
  · intro es hes hne
    simp only [] at hes
    subst hes
    cases es with
    | nil => exact absurd rfl hne
    | cons e rest =>
      refine ⟨by simp [execute], by simp [execute], by simp [execute],
        by simp [execute, makeDetails], batchItems_map_id _ _,
        batchItems_map_text _ _, batchItems_status _ _⟩

/-- Witness for C7: Scenario B, batch of two on the fresh state. -/
theorem batch_spec_witness :
    (execute defaultState
        { action := TodoAction.batch,
          items := some [{ text := "a" }, { text := "b" }] }).1.items
      = defaultState.items ++
          batchItems defaultState.nextId [{ text := "a" }, { text := "b" }] ∧
    (execute defaultState
        { action := TodoAction.batch,
          items := some [{ text := "a" }, { text := "b" }] }).1.nextId
      = defaultState.nextId + 2 ∧
    (execute defaultState
        { action := TodoAction.batch,
          items := some [{ text := "a" }, { text := "b" }] }).1.listName
      = defaultState.listName ∧
    (execute defaultState
        { action := TodoAction.batch,
          items := some [{ text := "a" }, { text := "b" }] }).2.details.error
      = none ∧
    (batchItems defaultState.nextId
        [{ text := "a" }, { text := "b" }]).map (fun i => i.id)
      = List.range' defaultState.nextId 2 ∧
    (batchItems defaultState.nextId
        [{ text := "a" }, { text := "b" }]).map (fun i => i.text)
      = ["a", "b"] ∧
    ∀ it ∈ batchItems defaultState.nextId [{ text := "a" }, { text := "b" }],
      it.status = TodoStatus.pending :=
  (batch_spec defaultState
      { action := TodoAction.batch,
        items := some [{ text := "a" }, { text := "b" }] } rfl).2
    [{ text := "a" }, { text := "b" }] rfl (by decide)

/-- The in-place status update never changes the number of items. -/
theorem length_updateFirst (l : List TodoItem) (n : Nat) (st : TodoStatus)
    (r : Option String) : (updateFirst l n st r).length = l.length := by
  induction l with
  | nil => rfl
  | cons i rest ih => by_cases hi : i.id = n <;> simp [updateFirst, hi, ih]

/-- The shared status case hands out no ids: `nextId` is unchanged and
nothing is appended beyond the old length. -/
theorem applyStatus_no_newIds (s : TodoState) (act : TodoAction)
    (st : TodoStatus) (p : TodoParams) :
    (applyStatus s act st p).1.nextId = s.nextId ∧
    ((applyStatus s act st p).1.items).drop s.items.length = [] := by
  rcases hp : p.id with _ | n
  · exact ⟨by simp [applyStatus, hp], by simp [applyStatus, hp, List.drop_length]⟩
  · cases hf : s.items.find? (fun i => i.id == n) with
    | none =>
      exact ⟨by simp [applyStatus, hp, hf],
        by simp [applyStatus, hp, hf, List.drop_length]⟩
    | some it0 =>
      refine ⟨by simp [applyStatus, hp, hf], ?_⟩
      have hl : s.items.length = (updateFirst s.items n st p.reason).length :=
        (length_updateFirst s.items n st p.reason).symm
      simp only [applyStatus, hp, hf]
      rw [hl]
      exact List.drop_length _

/-- One clear-free, create-free reducer step: `nextId` does not shrink,
the ids handed out are strictly increasing, and they all lie in the
window between the old and the new `nextId`. -/
theorem newIds_step (s : TodoState) (p : TodoParams)
    (hc : p.action ≠ TodoAction.clear)
    (hcr : p.action ≠ TodoAction.create) :
    s.nextId ≤ (execute s p).1.nextId ∧
    (newIds s p).Pairwise (· < ·) ∧
    ∀ a ∈ newIds s p, s.nextId ≤ a ∧ a < (execute s p).1.nextId := by
  obtain ⟨act, nm, tx, its, pid, rsn, grp⟩ := p
  cases act with
  | create => exact absurd rfl hcr
  | clear => exact absurd rfl hc
  | add =>
    by_cases ht : strTruthy tx
    · have hni : newIds s
          { action := TodoAction.add, name := nm, text := tx, items := its,
            id := pid, reason := rsn, group := grp } = [s.nextId] := by
        simp [newIds, execute, ht, List.drop_left]
      refine ⟨by simp [execute, ht], ?_, ?_⟩
      · rw [hni]; exact List.pairwise_singleton _ _
      · rw [hni]
        intro a ha
        rw [List.mem_singleton] at ha
        subst ha
        exact ⟨Nat.le_refl _, by simp [execute, ht]⟩
    · refine ⟨by simp [execute, ht], ?_, ?_⟩
      · simp [newIds, execute, ht, List.drop_length]
      · simp [newIds, execute, ht, List.drop_length]
  | batch =>
    rcases its with _ | ⟨_ | ⟨e, es⟩⟩
    · refine ⟨by simp [execute], by simp [newIds, execute, List.drop_length],
        by simp [newIds, execute, List.drop_length]⟩
    · refine ⟨by simp [execute], by simp [newIds, execute, List.drop_length],
        by simp [newIds, execute, List.drop_length]⟩
    · have hni : newIds s
          { action := TodoAction.batch, name := nm, text := tx,
            items := some (e :: es), id := pid, reason := rsn, group := grp }
          = List.range' s.nextId (e :: es).length := by
        simp only [newIds, execute]
        rw [List.drop_left]
        exact batchItems_map_id (e :: es) s.nextId
      refine ⟨by simp [execute], ?_, ?_⟩
      · rw [hni]; exact List.pairwise_lt_range' _ _
      · rw [hni]
        intro a ha
        rw [List.mem_range'_1] at ha
        exact ⟨ha.1, by simpa [execute] using ha.2⟩
  | start =>
    obtain ⟨h1, h2⟩ := applyStatus_no_newIds s TodoAction.start TodoStatus.in_progress _
    exact ⟨le_of_eq (by simpa [execute] using h1.symm),
      by simp [newIds, execute, h2], by simp [newIds, execute, h2]⟩
  | done =>
    obtain ⟨h1, h2⟩ := applyStatus_no_newIds s TodoAction.done TodoStatus.done _
    exact ⟨le_of_eq (by simpa [execute] using h1.symm),
      by simp [newIds, execute, h2], by simp [newIds, execute, h2]⟩
  | skip =>
    obtain ⟨h1, h2⟩ := applyStatus_no_newIds s TodoAction.skip TodoStatus.skipped _
    exact ⟨le_of_eq (by simpa [execute] using h1.symm),
      by simp [newIds, execute, h2], by simp [newIds, execute, h2]⟩
  | block =>
    obtain ⟨h1, h2⟩ := applyStatus_no_newIds s TodoAction.block TodoStatus.blocked _
    exact ⟨le_of_eq (by simpa [execute] using h1.symm),
      by simp [newIds, execute, h2], by simp [newIds, execute, h2]⟩
  | reset =>
    obtain ⟨h1, h2⟩ := applyStatus_no_newIds s TodoAction.reset TodoStatus.pending _
    exact ⟨le_of_eq (by simpa [execute] using h1.symm),
      by simp [newIds, execute, h2], by simp [newIds, execute, h2]⟩
  | list =>
    by_cases he : s.items.isEmpty <;>
      exact ⟨by simp [execute, he], by simp [newIds, execute, he, List.drop_length],
        by simp [newIds, execute, he, List.drop_length]⟩
  | summary =>
    exact ⟨by simp [execute], by simp [newIds, execute, List.drop_length],
      by simp [newIds, execute, List.drop_length]⟩

/-- Every id handed out along a clear-free, create-free run is at least
the starting `nextId`. -/
theorem idTrace_lb :
    ∀ (ps : List TodoParams) (s : TodoState),
      (∀ p ∈ ps, p.action ≠ TodoAction.clear ∧ p.action ≠ TodoAction.create) →
      ∀ a ∈ idTrace s ps, s.nextId ≤ a := by
  intro ps
  induction ps with
  | nil => intro s _ a ha; simp [idTrace] at ha
  | cons p rest ih =>
    intro s h a ha
    obtain ⟨h1, _, h3⟩ := newIds_step s p (h p (by simp)).1 (h p (by simp)).2
    rcases (by simpa [idTrace] using ha :
        a ∈ newIds s p ∨ a ∈ idTrace (execute s p).1 rest) with hm | hm
    · exact (h3 a hm).1
    · exact le_trans h1
        (ih (execute s p).1 (fun q hq => h q (by simp [hq])) a hm)

/-- Claim C3 (amended): over any action sequence containing neither
`clear` nor `create`, the ids handed out by `add` and `batch` are
strictly increasing and never repeated; this fails across a `clear`
because `clear` resets `nextId` to 1 (see the counterexample), so the
original "including across a clear" scope does not hold. -/
theorem idTrace_strict_mono :
    ∀ (ps : List TodoParams) (s : TodoState),
      (∀ p ∈ ps, p.action ≠ TodoAction.clear ∧ p.action ≠ TodoAction.create) →
      (idTrace s ps).Pairwise (· < ·) := by
  intro ps
  induction ps with
  | nil => intro s _; simp [idTrace]
  | cons p rest ih =>
    intro s h
    obtain ⟨h1, h2, h3⟩ := newIds_step s p (h p (by simp)).1 (h p (by simp)).2
    simp only [idTrace]
    rw [List.pairwise_append]
    refine ⟨h2, ih (execute s p).1 (fun q hq => h q (by simp [hq])), ?_⟩
    intro a ha b hb
    exact lt_of_lt_of_le (h3 a ha).2
      (idTrace_lb rest (execute s p).1 (fun q hq => h q (by simp [hq])) b hb)

/-- Witness for the amended C3 on a concrete add-then-batch run. -/
theorem idTrace_strict_mono_witness :
    (idTrace defaultState
        [ { action := TodoAction.add, text := some "a" },
          { action := TodoAction.batch,
            items := some [{ text := "b" }, { text := "c" }] } ]).Pairwise (· < ·) :=
  idTrace_strict_mono _ defaultState (by decide)

/-- Entries that do not match the tracker are no-ops for the
reconstruction fold, so the fold only sees the matching records. -/
theorem foldl_reconStep_filter :
    ∀ (l : List SessionEntry) (s0 : TodoState),
      l.foldl reconStep s0 = (l.filter matchesTodo).foldl reconStep s0 := by
  intro l
  induction l with
  | nil => intro s0; rfl
  | cons e rest ih =>
    intro s0
    by_cases he : matchesTodo e
    · simp [List.filter_cons, he, ih]
    · have hstep : reconStep s0 e = s0 := by simp [reconStep, he]
      simp [List.filter_cons, he, hstep, ih]

/-- Folding the reconstruction step over the records of a run adopts
snapshot after snapshot, ending at the run's final state (or at the
accumulator when the run is empty). -/
theorem foldl_records :
    ∀ (ps : List TodoParams) (s s0 : TodoState),
      ((runRecords s ps).map recordEntry).foldl reconStep s0 =
        if ps.isEmpty then s0
        else ps.foldl (fun s p => (execute s p).1) s := by
  intro ps
  induction ps with
  | nil => intro s s0; rfl
  | cons p rest ih =>
    intro s s0
    have hstep : reconStep s0 (recordEntry (execute s p).2.details) =
        (execute s p).1 := by
      have hm : matchesTodo (recordEntry (execute s p).2.details) = true := rfl
      simp only [reconStep, recordEntry, hm, if_true]
      exact execute_details_state s p
    simp only [runRecords, List.map_cons, List.foldl_cons, hstep,
      List.isEmpty_cons]
    rw [ih]
    cases rest with
    | nil => simp
    | cons q qs => simp

/-- Claim C1: over any branch whose tracker-matching entries are
exactly the records of an action run from the default state (in order,
arbitrarily interleaved with unrelated entries), the Reconstructor —
which retains the snapshot of the last matching record — produces
exactly the state of full reducer replay of those actions from the
default empty state. -/
theorem reconstruct_eq_replay (ps : List TodoParams)
    (branch : List SessionEntry)
    (h : branch.filter matchesTodo = (runRecords defaultState ps).map recordEntry) :
    reconstructState branch = replay ps := by
  unfold reconstructState replay
  rw [foldl_reconStep_filter, h, foldl_records]
  cases ps with
  | nil => rfl
  | cons p rest => rfl

/-- Witness for C1: a two-action run with an unrelated entry in front
of its records. -/
theorem reconstruct_eq_replay_witness :
    (( { type := "message", role := "user", toolName := "" } : SessionEntry)
        :: (runRecords defaultState
            [ { action := TodoAction.create, name := some "Auth" },
              { action := TodoAction.add, text := some "write login test" } ]).map
            recordEntry).filter matchesTodo
      = (runRecords defaultState
          [ { action := TodoAction.create, name := some "Auth" },
            { action := TodoAction.add, text := some "write login test" } ]).map
          recordEntry ∧
    reconstructState
        (( { type := "message", role := "user", toolName := "" } : SessionEntry)
          :: (runRecords defaultState
              [ { action := TodoAction.create, name := some "Auth" },
                { action := TodoAction.add, text := some "write login test" } ]).map
              recordEntry)
      = replay
          [ { action := TodoAction.create, name := some "Auth" },
            { action := TodoAction.add, text := some "write login test" } ] :=
  ⟨by decide, reconstruct_eq_replay _ _ (by decide)⟩

end TodoTracker
